import Mathlib

/-!
Shallow embedding of `src/budolib/budo_scraper.py` (classes `BudoConfig`,
`BudoPersistence`, `BudoTrimmer`, `BudoHtml`) and proofs about it.

Python strings are Lean `String`s (lists of characters); the file system is an
association list from paths (lists of components) to file entries; logging is
modelled by returning a list of `Warning` values; raised exceptions are
modelled with `Except`; the network is a parameter `net : String → String`
together with an explicit count of requests performed.
-/

/-- A log message emitted through `BudoLogger.warning`; each constructor
stands for one warning site in the source. -/
inductive Warning where
  | startNotFound
  | startMultiple
  | endNotFound
  | endMultiple
  | trimmerAmbiguous (n : Nat)
  | validationMissing (s : String)
  | overwroteTrimmer (u : String)
  | emptyFileCreated
  | compressSourceMissing
  | decompressSourceMissing
  deriving DecidableEq, Repr

/-- Exceptions that can escape `BudoPersistence` calls. -/
inductive PErr where
  | fileNotFound
  | permissionDenied
  | ioError
  deriving DecidableEq, Repr

/-- One file on disk: readable content, or a file whose access raises
`PermissionError`, or one whose access raises `IOError`. -/
inductive Entry where
  | good (s : String)
  | noPerm
  | ioBad
  deriving DecidableEq, Repr

/-- A path, as the list of its components below the workspace root. -/
abbrev FPath := List String

/-- The file system: an association list from paths to entries. -/
abbrev FS := List (FPath × Entry)

/-- Association-list lookup (Python `dict` access / file lookup). -/
def dictGet {β : Type} : List (String × β) → String → Option β
  | [], _ => none
  | (k, v) :: rest, key => if k = key then some v else dictGet rest key

/-- Python `d[k] = v`: replace in place if the key exists, else append. -/
def dictInsert {β : Type} (key : String) (v : β) :
    List (String × β) → List (String × β)
  | [] => [(key, v)]
  | (k, w) :: rest =>
    if k = key then (key, v) :: rest else (k, w) :: dictInsert key v rest

/-- File-system lookup by path. -/
def fsGet : FS → FPath → Option Entry
  | [], _ => none
  | (k, v) :: rest, p => if k = p then some v else fsGet rest p

/-- Write an entry at a path: replace in place if present, else append. -/
def fsSet (p : FPath) (e : Entry) : FS → FS
  | [] => [(p, e)]
  | (k, v) :: rest =>
    if k = p then (p, e) :: rest else (k, v) :: fsSet p e rest

/-- Test that `p` is a strict ancestor of `q` in the directory tree. -/
def strictAncestorOf (p q : FPath) : Bool :=
  decide (p.length < q.length) && p.isPrefixOf q

/-- Test that `p` names a directory: some existing file lives strictly below it. -/
def isDirOf (fs : FS) (p : FPath) : Bool :=
  fs.any fun e => strictAncestorOf p e.1

/-- Some ancestor of `p` is an existing file (so `p` cannot be created). -/
def hasFileAncestor (fs : FS) (p : FPath) : Bool :=
  fs.any fun e => strictAncestorOf e.1 p

/-- Outcome of `open(path, "r")`. -/
inductive ReadResult where
  | content (s : String)
  | notFound
  | permDenied
  | ioFail
  deriving DecidableEq, Repr

/-- Model of `open(path)` followed by `read()`: content if a readable file exists, else the
exception raised (`FileNotFoundError` when nothing exists at the path,
`IsADirectoryError`, i.e. an `IOError`, when the path is a directory). -/
def openRead (fs : FS) (p : FPath) : ReadResult :=
  match fsGet fs p with
  | some (.good s) => .content s
  | some .noPerm => .permDenied
  | some .ioBad => .ioFail
  | none => if isDirOf fs p then .ioFail else .notFound

/-- Model of `open(path)` for writing followed by `write(content)`: errors when an ancestor is a file,
when the path is a directory, or when the existing entry denies access. -/
def openWrite (fs : FS) (p : FPath) (content : String) : Except PErr FS :=
  if hasFileAncestor fs p then .error .ioError
  else
    match fsGet fs p with
    | some .noPerm => .error .permissionDenied
    | some .ioBad => .error .ioError
    | _ => if isDirOf fs p then .error .ioError else .ok (fsSet p (.good content) fs)

namespace BudoConfig

/-- Source `BudoConfig.compressed_folder_name`. -/
def compressed_folder_name : String := "compressed_backups"

/-- Source `BudoConfig.uncompressed_folder_name`. -/
def uncompressed_folder_name : String := "uncompressed_files"

/-- Source `BudoConfig.feature_flag_try_write_compressed_backups`. -/
def feature_flag_try_write_compressed_backups : Bool := true

/-- Source `BudoConfig.feature_flag_try_read_compressed_backups`. -/
def feature_flag_try_read_compressed_backups : Bool := true

/-- Source `BudoConfig.feature_flag_read_webcache`. -/
def feature_flag_read_webcache : Bool := true

/-- Source `BudoConfig.feature_flag_write_webcache`. -/
def feature_flag_write_webcache : Bool := true

/-- Source `BudoConfig.html_webcache_folder` relative to the workspace root
(`data/webcache`). -/
def html_webcache_folder : FPath := ["data", "webcache"]

end BudoConfig

namespace BudoPersistence

/-- Model of `path.is_file()`: the path exists as a file. -/
def is_file (fs : FS) (p : FPath) : Bool := (fsGet fs p).isSome

/-- Source `BudoPersistence._add_subfolder_to_end_of_path`: insert the subfolder
before the final component when the path is an existing file, else append it. -/
def _add_subfolder_to_end_of_path (fs : FS) (p : FPath) (subfolder : String) :
    FPath :=
  if is_file fs p then p.dropLast ++ [subfolder] ++ [p.getLastD ""]
  else p ++ [subfolder]

/-- Source `BudoPersistence._generate_compressed_subpath`. -/
def _generate_compressed_subpath (fs : FS) (p : FPath) : FPath :=
  _add_subfolder_to_end_of_path fs p BudoConfig.compressed_folder_name

/-- Source `BudoPersistence._generate_uncompressed_subpath`. -/
def _generate_uncompressed_subpath (fs : FS) (p : FPath) : FPath :=
  _add_subfolder_to_end_of_path fs p BudoConfig.uncompressed_folder_name

/-- Source `BudoPersistence.try_compress_file`: copy the uncompressed-subfolder file
into the compressed subfolder; every failure is caught and reported as
`false` (gzip itself is content-preserving, so content passes through). -/
def try_compress_file (p : FPath) (fs : FS) : Bool × FS :=
  let compressed_path := _generate_compressed_subpath fs p
  let uncompressed_path := _generate_uncompressed_subpath fs p
  match openRead fs uncompressed_path with
  | .content s =>
    match openWrite fs compressed_path s with
    | .ok fs2 => (true, fs2)
    | .error _ => (false, fs)
  | _ => (false, fs)

/-- Source `BudoPersistence.try_decompress_file`: copy the compressed-subfolder file
into the uncompressed subfolder; every failure is caught and reported as
`false`. -/
def try_decompress_file (p : FPath) (fs : FS) : Bool × FS :=
  let compressed_path := _generate_compressed_subpath fs p
  let uncompressed_path := _generate_uncompressed_subpath fs p
  match openRead fs compressed_path with
  | .content s =>
    match openWrite fs uncompressed_path s with
    | .ok fs2 => (true, fs2)
    | .error _ => (false, fs)
  | _ => (false, fs)

mutual

/-- Source `BudoPersistence.read_textfile`: read the file; on `FileNotFoundError`
attempt decompression and, guarded by the `_in_recursion_loop` flag, retry
once; `missing_ok` turns a final miss into empty text instead of an error.
The result carries the updated file system and `_in_recursion_loop` flag. -/
def read_textfile (p : FPath) (missing_ok : Bool) (fs : FS) (flag : Bool) :
    Except PErr String × FS × Bool :=
  match openRead fs p with
  | .content s => (.ok s, fs, flag)
  | .permDenied => (.error .permissionDenied, fs, flag)
  | .ioFail => (.error .ioError, fs, flag)
  | .notFound =>
    if BudoConfig.feature_flag_try_read_compressed_backups then
      match try_decompress_file p fs with
      | (true, fs2) => _try_recursive_call p missing_ok fs2 flag
      | (false, fs2) =>
        if missing_ok then (.ok "", fs2, flag) else (.error .fileNotFound, fs2, flag)
    else
      if missing_ok then (.ok "", fs, flag) else (.error .fileNotFound, fs, flag)
termination_by (cond flag 0 1) * 2 + 1

/-- Source `BudoPersistence._try_recursive_call`: retry the read unless the
`_in_recursion_loop` flag is already set; on a raised exception the Python
flag-reset lines are skipped, so the flag from the nested call survives. -/
def _try_recursive_call (p : FPath) (missing_ok : Bool) (fs : FS) (flag : Bool) :
    Except PErr String × FS × Bool :=
  match flag with
  | true => (.ok "", fs, false)
  | false =>
    match read_textfile p missing_ok fs true with
    | (.ok t, fs2, _) => (.ok t, fs2, false)
    | (.error e, fs2, flag2) => (.error e, fs2, flag2)
termination_by (cond flag 0 1) * 2

end

/-- Source `BudoPersistence.try_read_textfile`. -/
def try_read_textfile (p : FPath) (fs : FS) (flag : Bool) :
    Except PErr String × FS × Bool :=
  read_textfile p true fs flag

/-- Source `BudoPersistence.write_textfile`: write the content (warning on empty
content), then best-effort compress; write errors propagate. -/
def write_textfile (p : FPath) (content : String) (fs : FS) :
    Except PErr Unit × FS × List Warning :=
  match openWrite fs p content with
  | .error e => (.error e, fs, [])
  | .ok fs1 =>
    let ws : List Warning := if content = "" then [.emptyFileCreated] else []
    if BudoConfig.feature_flag_try_write_compressed_backups then
      let r := try_compress_file p fs1
      (.ok (), r.2, ws)
    else
      (.ok (), fs1, ws)

end BudoPersistence

/-- Python `text.startswith(pat, i)`: `pat` occurs at character index `i`. -/
def pyStartswithAt (pat text : String) (i : Nat) : Bool :=
  pat.data.isPrefixOf (text.data.drop i)

/-- Model of `[i for i in range(len(text)) if text.startswith(pat, i)]`. -/
def startIndices (pat text : String) : List Nat :=
  (List.range text.data.length).filter (pyStartswithAt pat text)

/-- Python `needle in hay`: the substring test (empty needle always holds). -/
def pySubstr (needle hay : String) : Bool :=
  needle.data.isEmpty ||
    (List.range hay.data.length).any (pyStartswithAt needle hay)

/-- Python `str.replace(old, new)` on character lists: scan left to right,
replacing non-overlapping occurrences; an empty `old` inserts `new` between
every character and at both ends, as Python does. -/
def pyReplace (old new : List Char) : List Char → List Char
  | [] => if old.isEmpty then new else []
  | c :: cs =>
    if _hyp : old ≠ [] ∧ old.isPrefixOf (c :: cs) then
      new ++ pyReplace old new ((c :: cs).drop old.length)
    else if old.isEmpty then
      new ++ c :: pyReplace old new cs
    else
      c :: pyReplace old new cs
termination_by l => l.length
decreasing_by
  · have : old.length ≥ 1 := by
      cases old with
      | nil => exact absurd rfl _hyp.1
      | cons a as => simp
    simp only [List.length_drop, List.length_cons]
    omega
  · simp
  · simp

namespace BudoTrimmer

/-- The `BudoTrimmer` ruleset object: Python `Optional` maps to `Option`, the
`replacements` dict to an insertion-ordered association list. -/
structure Trimmer where
  target_url : String
  start : String
  «end» : String
  replacements : Option (List (String × String))
  validations : Option (List String)
  deriving DecidableEq, Repr

/-- The `BudoTrimmer._trimmer_registry` dict. -/
abbrev Registry := List (String × Trimmer)

/-- Source `BudoTrimmer._trimmers_are_equal`: field-by-field comparison. -/
def _trimmers_are_equal (t1 t2 : Trimmer) : Bool :=
  let equal_url := t1.target_url == t2.target_url
  let equal_start := t1.start == t2.start
  let equal_end := t1.«end» == t2.«end»
  let equal_replace := t1.replacements == t2.replacements
  let equal_validate := t1.validations == t2.validations
  equal_url && equal_start && equal_end && equal_replace && equal_validate

/-- Source `BudoTrimmer.register_trimming_ruleset`: store (or overwrite) the ruleset
for `target_url`; warn if a different ruleset was already stored there. -/
def register_trimming_ruleset (reg : Registry) (target_url start «end» : String)
    (replacements : Option (List (String × String)))
    (validations : Option (List String)) : Registry × List Warning :=
  let new_trimmer : Trimmer := ⟨target_url, start, «end», replacements, validations⟩
  let ws : List Warning :=
    match dictGet reg target_url with
    | some existing_trimmer =>
      if _trimmers_are_equal new_trimmer existing_trimmer then []
      else [.overwroteTrimmer target_url]
    | none => []
  (dictInsert target_url new_trimmer reg, ws)

/-- Inner `_trim_start` of `BudoTrimmer._trim_start_and_end`: with exactly one
occurrence of `start`, drop everything before it; otherwise warn and return
the text unchanged. -/
def _trim_start (text start : String) : String × List Warning :=
  match startIndices start text with
  | [] => (text, [.startNotFound])
  | [start_index] => (⟨text.data.drop start_index⟩, [])
  | _ => (text, [.startMultiple])

/-- Inner `_trim_end` of `BudoTrimmer._trim_start_and_end`: with exactly one
occurrence of `end`, keep everything up to and including it; otherwise warn
and return the text unchanged. -/
def _trim_end (text «end» : String) : String × List Warning :=
  match startIndices «end» text with
  | [] => (text, [.endNotFound])
  | [end_index] => (⟨text.data.take (end_index + «end».data.length)⟩, [])
  | _ => (text, [.endMultiple])

/-- Source `BudoTrimmer._trim_start_and_end`: trim the start side, then the end side
of the already start-trimmed text. -/
def _trim_start_and_end (text_to_trim start «end» : String) :
    String × List Warning :=
  let r1 := _trim_start text_to_trim start
  let r2 := _trim_end r1.1 «end»
  (r2.1, r1.2 ++ r2.2)

/-- Source `BudoTrimmer._replace_substrings`: apply each replacement pair in order. -/
def _replace_substrings (text_to_trim : String)
    (replacements : Option (List (String × String))) : String :=
  match replacements with
  | none => text_to_trim
  | some prs =>
    prs.foldl (fun acc kv => ⟨pyReplace kv.1.data kv.2.data acc.data⟩) text_to_trim

/-- Source `BudoTrimmer._validate_remaining_text`: warn for each validation string
absent from the text; the text itself is returned unchanged. -/
def _validate_remaining_text (text_to_trim : String)
    (validations : Option (List String)) : String × List Warning :=
  match validations with
  | none => (text_to_trim, [])
  | some vs =>
    (text_to_trim,
      vs.filterMap fun v =>
        if pySubstr v text_to_trim then none else some (.validationMissing v))

/-- Source `BudoTrimmer.trim_and_validate`: bound, replace, validate, in order. -/
def trim_and_validate (t : Trimmer) (text_to_trim : String) :
    String × List Warning :=
  let r1 := _trim_start_and_end text_to_trim t.start t.«end»
  let replaced_text := _replace_substrings r1.1 t.replacements
  let r3 := _validate_remaining_text replaced_text t.validations
  (r3.1, r1.2 ++ r3.2)

/-- The registered trimmers whose `target_url` is a substring of `url`, in
registry order (the `matches` list of `BudoTrimmer.trim_html`). -/
def trimMatches (reg : Registry) (url : String) : List Trimmer :=
  (reg.filter fun kv => pySubstr kv.1 url).map (·.2)

/-- Source `BudoTrimmer.trim_html`: an explicit trimmer is applied unconditionally;
otherwise apply the unique registry match, warn when more than one matches,
and return the html unchanged when zero or more than one matches. -/
def trim_html (reg : Registry) (url html : String) (trimmer : Option Trimmer) :
    String × List Warning :=
  match trimmer with
  | some t => trim_and_validate t html
  | none =>
    match trimMatches reg url with
    | [t] => trim_and_validate t html
    | [] => (html, [])
    | ms => (html, [.trimmerAmbiguous ms.length])

end BudoTrimmer

/-- First character index of `l` at which `pat` occurs (indices up to and
including `l.length`, so an empty pattern is found at the end as well). -/
def findSub (pat l : List Char) : Option Nat :=
  (List.range (l.length + 1)).find? fun i => pat.isPrefixOf (l.drop i)

/-- Modelled from `urllib.parse.urlparse`, restricted to the shapes this
program feeds it (`scheme://netloc/path?query` and scheme-less strings):
returns `(netloc, path, query)`. When `"://"` is absent the whole string is
the path and the netloc is empty, as `urlparse` does for such inputs. -/
def pyUrlparse (url : String) : String × String × String :=
  let l := url.data
  let (netloc, after) :=
    match findSub "://".data l with
    | some i =>
      let r := l.drop (i + 3)
      (r.takeWhile (fun c => c ≠ '/' && c ≠ '?' && c ≠ '#'),
        r.dropWhile (fun c => c ≠ '/' && c ≠ '?' && c ≠ '#'))
    | none => ([], l)
  let path := after.takeWhile (fun c => c ≠ '?' && c ≠ '#')
  let afterPath := after.dropWhile (fun c => c ≠ '?' && c ≠ '#')
  let query :=
    match afterPath with
    | '?' :: r => r.takeWhile (· ≠ '#')
    | _ => []
  (⟨netloc⟩, ⟨path⟩, ⟨query⟩)

/-- Python `s.split(sep)` for a one-character separator. -/
def splitOnChar (sep : Char) : List Char → List (List Char)
  | [] => [[]]
  | c :: cs =>
    if c = sep then [] :: splitOnChar sep cs
    else
      match splitOnChar sep cs with
      | [] => [[c]]
      | h :: t => (c :: h) :: t

/-- Membership in `f"-_.{string.ascii_letters}{string.digits}"`. -/
def validChar (c : Char) : Bool :=
  c == '-' || c == '_' || c == '.' || c.isAlpha || c.isDigit

/-- Model of `c if c in valid_chars else _` from `BudoHtml._generate_filename`. -/
def sanitizeChar (c : Char) : Char := if validChar c then c else '_'

/-- Python `s.strip(c)`: drop the character from both ends. -/
def stripChar (c : Char) (l : List Char) : List Char :=
  ((l.dropWhile (· == c)).reverse.dropWhile (· == c)).reverse

namespace BudoHtml

/-- Source `BudoHtml._default_webcache_file_ext`. -/
def _default_webcache_file_ext : String := ".txt"

/-- Source `BudoHtml._generate_foldername`: domain without port, top-level label
dropped, a leading `www` label dropped, remaining labels joined with `_`. -/
def _generate_foldername (url : String) : String :=
  let domain := (pyUrlparse url).1.data.takeWhile (· ≠ ':')
  let domain_parts := splitOnChar '.' domain
  let domain_parts := domain_parts.dropLast
  let domain_parts :=
    if domain_parts.length > 1 &&
        (domain_parts.headD []).map Char.toLower == "www".data then
      domain_parts.drop 1
    else domain_parts
  ⟨List.intercalate "_".data domain_parts⟩

/-- The path-plus-query of the URL after sanitization, `/`-replacement and
underscore-stripping, exactly as computed inside `BudoHtml._generate_filename`
before its emptiness test. -/
def sanitizedPathQuery (url : String) : List Char :=
  let parsed := pyUrlparse url
  let path_and_query := parsed.2.1.data ++ parsed.2.2.data
  let path_and_query :=
    match path_and_query with
    | '/' :: rest => rest
    | l => l
  stripChar '_' (pyReplace ['/'] ['_'] (path_and_query.map sanitizeChar))

/-- Source `BudoHtml._generate_filename`: sanitize the path-plus-query; when that
strips to nothing, fall back to the character-wise sanitization of the whole
URL (with no stripping). -/
def _generate_filename (url : String) : String :=
  let sanitized_filename := sanitizedPathQuery url
  if sanitized_filename = [] then ⟨url.data.map sanitizeChar⟩
  else ⟨sanitized_filename⟩

/-- Source `BudoHtml._get_path_for_cached_html`: webcache root, derived folder,
derived filename with the `.txt` extension. -/
def _get_path_for_cached_html (url : String) : FPath :=
  let file_ext := _default_webcache_file_ext
  let file_ext := if pySubstr "." file_ext then file_ext else "." ++ file_ext
  let file := _generate_filename url ++ file_ext
  let folder := _generate_foldername url
  BudoConfig.html_webcache_folder ++ [folder, file]

/-- The mutable state `BudoHtml` and `BudoPersistence` share: the in-memory
`_webcache` dict, the file system, and the `_in_recursion_loop` flag. -/
structure HState where
  webcache : List (String × String)
  fs : FS
  in_recursion_loop : Bool
  deriving DecidableEq, Repr

/-- Source `BudoHtml._search_url_in_local_webcache`: read the disk cache at the
given or derived path (a raised persistence error propagates). -/
def _search_url_in_local_webcache (url : String) (path : Option FPath)
    (st : HState) : Except PErr String × HState :=
  if BudoConfig.feature_flag_read_webcache then
    let p := path.getD (_get_path_for_cached_html url)
    match BudoPersistence.try_read_textfile p st.fs st.in_recursion_loop with
    | (.ok html, fs2, flag2) =>
      (.ok html, { st with fs := fs2, in_recursion_loop := flag2 })
    | (.error e, fs2, flag2) =>
      (.error e, { st with fs := fs2, in_recursion_loop := flag2 })
  else
    (.ok "", st)

/-- Source `BudoHtml.try_get_cached_html`: in-memory tier first; a non-empty disk
hit is promoted into the in-memory dict before being returned. -/
def try_get_cached_html (url : String) (path : Option FPath) (st : HState) :
    Except PErr String × HState :=
  match dictGet st.webcache url with
  | some h => (.ok h, st)
  | none =>
    match _search_url_in_local_webcache url path st with
    | (.ok cached_html, st2) =>
      if cached_html ≠ "" then
        (.ok cached_html, { st2 with webcache := dictInsert url cached_html st2.webcache })
      else
        (.ok "", st2)
    | (.error e, st2) => (.error e, st2)

/-- Source `BudoHtml._write_html_to_disk`: write to the given or derived path. -/
def _write_html_to_disk (url html : String) (path : Option FPath) (fs : FS) :
    Except PErr Unit × FS :=
  let p := path.getD (_get_path_for_cached_html url)
  let r := BudoPersistence.write_textfile p html fs
  (r.1, r.2.1)

/-- Source `BudoHtml.cache_html_for_later`: trim, store in the in-memory dict, then
(write-cache flag permitting) write the trimmed text to disk; a raised disk
error propagates after the in-memory insert already happened. -/
def cache_html_for_later (reg : BudoTrimmer.Registry) (url html : String)
    (path : Option FPath) (st : HState) : Except PErr Unit × HState :=
  let trimmed_html := (BudoTrimmer.trim_html reg url html none).1
  let st1 := { st with webcache := dictInsert url trimmed_html st.webcache }
  if BudoConfig.feature_flag_write_webcache then
    match _write_html_to_disk url trimmed_html path st1.fs with
    | (.ok _, fs2) => (.ok (), { st1 with fs := fs2 })
    | (.error e, fs2) => (.error e, { st1 with fs := fs2 })
  else
    (.ok (), st1)

/-- Source `BudoHtml.fetch_url`: return the cached text when it is non-empty, else
send one network request (`net`), cache its trimmed result, and return the
raw fetched text. The final component counts network requests performed. -/
def fetch_url (reg : BudoTrimmer.Registry) (net : String → String)
    (url : String) (path : Option FPath) (st : HState) :
    Except PErr String × HState × Nat :=
  match try_get_cached_html url path st with
  | (.ok cached_html, st1) =>
    if cached_html ≠ "" then (.ok cached_html, st1, 0)
    else
      let html := net url
      match cache_html_for_later reg url html path st1 with
      | (.ok _, st2) => (.ok html, st2, 1)
      | (.error e, st2) => (.error e, st2, 1)
  | (.error e, st1) => (.error e, st1, 0)

end BudoHtml

instance exceptDecEq {ε α : Type} [DecidableEq ε] [DecidableEq α] :
    DecidableEq (Except ε α)
  | .error a, .error b =>
    if h : a = b then .isTrue (by rw [h])
    else .isFalse fun hh => h (Except.error.inj hh)
  | .error _, .ok _ => .isFalse fun hh => Except.noConfusion hh
  | .ok _, .error _ => .isFalse fun hh => Except.noConfusion hh
  | .ok a, .ok b =>
    if h : a = b then .isTrue (by rw [h])
    else .isFalse fun hh => h (Except.ok.inj hh)

/-- A sample ruleset used by the concrete scenarios below. -/
def exTrimmer : BudoTrimmer.Trimmer := ⟨"site", "<A>", "</A>", none, none⟩

/-- A registry holding `exTrimmer` under its `target_url`. -/
def exReg : BudoTrimmer.Registry := [("site", exTrimmer)]

/-- A network that always serves the same page. -/
def exNet : String → String := fun _ => "noise<A>body</A>trailer"

/-- The pristine state: empty in-memory cache, empty disk, flag clear. -/
def exSt0 : BudoHtml.HState := ⟨[], [], false⟩

/-- The state after `fetch_url exReg exNet "https://site/x" none exSt0`:
the trimmed text sits in both cache tiers. -/
def exSt1 : BudoHtml.HState :=
  ⟨[("https://site/x", "<A>body</A>")],
   [(["data", "webcache", "", "x.txt"], .good "<A>body</A>")], false⟩

theorem strictAncestorOf_snoc (p : FPath) (x : String) :
    strictAncestorOf p (p ++ [x]) = true := by
  simp [strictAncestorOf]

theorem strictAncestorOf_of_snoc {p q : FPath} {x : String}
    (h : strictAncestorOf (p ++ [x]) q = true) : strictAncestorOf p q = true := by
  simp only [strictAncestorOf, Bool.and_eq_true, decide_eq_true_eq,
    List.isPrefixOf_iff_prefix] at h ⊢
  obtain ⟨h1, h2⟩ := h
  constructor
  · simp only [List.length_append, List.length_cons, List.length_nil] at h1
    omega
  · exact (List.prefix_append p [x]).trans h2

theorem isDirOf_extend_false {fs : FS} {p : FPath} (hd : isDirOf fs p = false)
    (x : String) : isDirOf fs (p ++ [x]) = false := by
  simp only [isDirOf, List.any_eq_false] at hd ⊢
  intro e he
  have h2 := hd e he
  intro hq
  exact h2 (strictAncestorOf_of_snoc hq)

theorem openRead_notFound {fs : FS} {p : FPath} (h : openRead fs p = .notFound) :
    fsGet fs p = none ∧ isDirOf fs p = false := by
  unfold openRead at h
  rcases hg : fsGet fs p with _ | e
  · rw [hg] at h
    refine ⟨rfl, ?_⟩
    by_contra hd
    simp only [Bool.not_eq_false] at hd
    rw [hd] at h
    simp at h
  · rw [hg] at h
    cases e <;> simp at h

theorem fsGet_extend_none {fs : FS} {p : FPath} (hd : isDirOf fs p = false)
    (x : String) : fsGet fs (p ++ [x]) = none := by
  induction fs with
  | nil => rfl
  | cons kv rest ih =>
    simp only [isDirOf, List.any_cons, Bool.or_eq_false_iff] at hd
    simp only [fsGet]
    rw [if_neg, ih]
    · simp only [isDirOf]
      exact hd.2
    · intro hk
      rw [hk] at hd
      rw [strictAncestorOf_snoc] at hd
      exact absurd hd.1 (by simp)

theorem openRead_extend_notFound {fs : FS} {p : FPath}
    (h : openRead fs p = .notFound) (x : String) :
    openRead fs (p ++ [x]) = .notFound := by
  obtain ⟨hg, hd⟩ := openRead_notFound h
  unfold openRead
  rw [fsGet_extend_none hd, isDirOf_extend_false hd]
  rfl

theorem try_decompress_file_notFound {fs : FS} {p : FPath}
    (h : openRead fs p = .notFound) :
    BudoPersistence.try_decompress_file p fs = (false, fs) := by
  obtain ⟨hg, _⟩ := openRead_notFound h
  unfold BudoPersistence.try_decompress_file
  unfold BudoPersistence._generate_compressed_subpath
  unfold BudoPersistence._add_subfolder_to_end_of_path
  rw [BudoPersistence.is_file, hg]
  simp only [Option.isSome_none, Bool.false_eq_true, if_false]
  rw [openRead_extend_notFound h]

theorem read_textfile_notFound {fs : FS} {p : FPath}
    (h : openRead fs p = .notFound) (m flag : Bool) :
    BudoPersistence.read_textfile p m fs flag =
      ((if m then .ok "" else .error .fileNotFound), fs, flag) := by
  rw [BudoPersistence.read_textfile]
  rw [h]
  rw [try_decompress_file_notFound h]
  simp only [BudoConfig.feature_flag_try_read_compressed_backups, if_true]
  cases m <;> rfl

theorem read_textfile_permDenied {fs : FS} {p : FPath}
    (h : openRead fs p = .permDenied) (m flag : Bool) :
    BudoPersistence.read_textfile p m fs flag =
      (.error .permissionDenied, fs, flag) := by
  rw [BudoPersistence.read_textfile]
  rw [h]

theorem read_textfile_ioFail {fs : FS} {p : FPath}
    (h : openRead fs p = .ioFail) (m flag : Bool) :
    BudoPersistence.read_textfile p m fs flag = (.error .ioError, fs, flag) := by
  rw [BudoPersistence.read_textfile]
  rw [h]

theorem read_textfile_content {fs : FS} {p : FPath} {s : String}
    (h : openRead fs p = .content s) (m flag : Bool) :
    BudoPersistence.read_textfile p m fs flag = (.ok s, fs, flag) := by
  rw [BudoPersistence.read_textfile]
  rw [h]

theorem pyReplace_single_char (a b : Char) (l : List Char) :
    pyReplace [a] [b] l = l.map fun c => if c = a then b else c := by
  induction l with
  | nil => rw [pyReplace]; rfl
  | cons c cs ih =>
    rw [pyReplace]
    by_cases hca : c = a
    · rw [dif_pos]
      · simp [ih, hca]
      · subst hca
        refine ⟨by simp, ?_⟩
        simp [List.isPrefixOf]
    · rw [dif_neg]
      · simp [ih, hca]
      · intro hcon
        have := hcon.2
        simp [List.isPrefixOf] at this
        exact hca this.symm

theorem dictGet_dictInsert {β : Type} (k : String) (v : β)
    (m : List (String × β)) : dictGet (dictInsert k v m) k = some v := by
  induction m with
  | nil => simp [dictInsert, dictGet]
  | cons kv rest ih =>
    by_cases h : kv.1 = k
    · simp [dictInsert, dictGet, h]
    · simp only [dictInsert, dictGet, if_neg h]
      exact ih

theorem dictInsert_idem {β : Type} (k : String) (v : β)
    (m : List (String × β)) : dictInsert k v (dictInsert k v m) = dictInsert k v m := by
  induction m with
  | nil => simp [dictInsert]
  | cons kv rest ih =>
    by_cases h : kv.1 = k
    · simp [dictInsert, h]
    · simp only [dictInsert, if_neg h]
      rw [ih]

theorem fetch_url_memory_hit {reg : BudoTrimmer.Registry} {net : String → String}
    {url : String} {path : Option FPath} {st : BudoHtml.HState} {c : String}
    (h : dictGet st.webcache url = some c) (hc : c ≠ "") :
    BudoHtml.fetch_url reg net url path st = (.ok c, st, 0) := by
  unfold BudoHtml.fetch_url BudoHtml.try_get_cached_html
  rw [h]
  simp [hc]

theorem try_get_cached_html_ok_mem {url : String} {path : Option FPath}
    {st st' : BudoHtml.HState} {h : String}
    (heq : BudoHtml.try_get_cached_html url path st = (.ok h, st'))
    (hh : h ≠ "") : dictGet st'.webcache url = some h := by
  unfold BudoHtml.try_get_cached_html at heq
  rcases hm : dictGet st.webcache url with _ | c
  · rw [hm] at heq
    rcases hs : BudoHtml._search_url_in_local_webcache url path st with ⟨r, st2⟩
    rw [hs] at heq
    rcases r with e | s
    · dsimp only at heq
      simp at heq
    · dsimp only at heq
      by_cases hse : s ≠ ""
      · rw [if_pos hse] at heq
        injection heq with h1 h2
        injection h1 with h1
        subst h1
        subst h2
        exact dictGet_dictInsert url s st2.webcache
      · rw [if_neg hse] at heq
        injection heq with h1 h2
        injection h1 with h1
        exact absurd h1.symm hh
  · rw [hm] at heq
    dsimp only at heq
    injection heq with h1 h2
    injection h1 with h1
    subst h1
    subst h2
    exact hm

theorem try_get_cached_html_promotes {url : String} {path : Option FPath}
    {st st2 : BudoHtml.HState} {h : String}
    (hm : dictGet st.webcache url = none)
    (hs : BudoHtml._search_url_in_local_webcache url path st = (.ok h, st2))
    (hh : h ≠ "") :
    BudoHtml.try_get_cached_html url path st =
      (.ok h, { st2 with webcache := dictInsert url h st2.webcache }) := by
  unfold BudoHtml.try_get_cached_html
  rw [hm, hs]
  dsimp only
  rw [if_pos hh]

theorem cache_html_for_later_mem (reg : BudoTrimmer.Registry)
    (url html : String) (path : Option FPath) (st : BudoHtml.HState) :
    dictGet (BudoHtml.cache_html_for_later reg url html path st).2.webcache url =
      some (BudoTrimmer.trim_html reg url html none).1 := by
  unfold BudoHtml.cache_html_for_later
  dsimp only
  rw [if_pos (show BudoConfig.feature_flag_write_webcache = true from rfl)]
  rcases BudoHtml._write_html_to_disk url (BudoTrimmer.trim_html reg url html none).1 path st.fs with ⟨r, fs2⟩
  rcases r with e | u
  · exact dictGet_dictInsert ..
  · exact dictGet_dictInsert ..

theorem fetch_url_ok_mem {reg : BudoTrimmer.Registry} {net : String → String}
    {url : String} {path : Option FPath} {st st1 : BudoHtml.HState}
    {h : String} {n : Nat}
    (heq : BudoHtml.fetch_url reg net url path st = (.ok h, st1, n)) :
    ∃ c, dictGet st1.webcache url = some c := by
  unfold BudoHtml.fetch_url at heq
  rcases ht : BudoHtml.try_get_cached_html url path st with ⟨r, st'⟩
  rw [ht] at heq
  rcases r with e | c
  · dsimp only at heq
    simp at heq
  · dsimp only at heq
    by_cases hc : c ≠ ""
    · rw [if_pos hc] at heq
      injection heq with h1 h2
      injection h2 with h2 h3
      subst h2
      exact ⟨c, try_get_cached_html_ok_mem ht hc⟩
    · rw [if_neg hc] at heq
      rcases hch : BudoHtml.cache_html_for_later reg url (net url) path st' with ⟨rc, st2⟩
      rw [hch] at heq
      rcases rc with e | u
      · dsimp only at heq
        simp at heq
      · dsimp only at heq
        injection heq with h1 h2
        injection h2 with h2 h3
        subst h2
        refine ⟨(BudoTrimmer.trim_html reg url (net url) none).1, ?_⟩
        have := cache_html_for_later_mem reg url (net url) path st'
        rw [hch] at this
        exact this

theorem trimmers_are_equal_refl (t : BudoTrimmer.Trimmer) :
    BudoTrimmer._trimmers_are_equal t t = true := by
  simp [BudoTrimmer._trimmers_are_equal]

/-- Claim C6: on a missing file that is not recoverable from a compressed
backup (in a coherent file system a missing primary path has no
`compressed_backups` child, so decompression always fails), `read_textfile`
raises NotFound when `missing_ok` is false and returns empty text when it is
true; permission errors and other I/O errors always propagate to the caller
regardless of `missing_ok`. -/
theorem claim_C6_read_textfile_error_policy (p : FPath) (m flag : Bool) (fs : FS) :
    (openRead fs p = .notFound →
      BudoPersistence.read_textfile p m fs flag =
        ((if m then .ok "" else .error .fileNotFound), fs, flag)) ∧
    (openRead fs p = .permDenied →
      BudoPersistence.read_textfile p m fs flag =
        (.error .permissionDenied, fs, flag)) ∧
    (openRead fs p = .ioFail →
      BudoPersistence.read_textfile p m fs flag =
        (.error .ioError, fs, flag)) :=
  ⟨fun h => read_textfile_notFound h m flag,
   fun h => read_textfile_permDenied h m flag,
   fun h => read_textfile_ioFail h m flag⟩

/-- Witness for C6 at concrete inputs: a missing file with `missing_ok`
false and true, a permission-denied file, and an I/O-failing file. -/
theorem claim_C6_witness :
    BudoPersistence.read_textfile ["a"] false [] false =
      (.error .fileNotFound, [], false) ∧
    BudoPersistence.read_textfile ["a"] true [] false = (.ok "", [], false) ∧
    BudoPersistence.read_textfile ["b"] true [(["b"], .noPerm)] false =
      (.error .permissionDenied, [(["b"], .noPerm)], false) ∧
    BudoPersistence.read_textfile ["c"] true [(["c"], .ioBad)] false =
      (.error .ioError, [(["c"], .ioBad)], false) :=
  ⟨(claim_C6_read_textfile_error_policy ["a"] false false []).1 (by decide),
   (claim_C6_read_textfile_error_policy ["a"] true false []).1 (by decide),
   (claim_C6_read_textfile_error_policy ["b"] true false
     [(["b"], .noPerm)]).2.1 (by decide),
   (claim_C6_read_textfile_error_policy ["c"] true false
     [(["c"], .ioBad)]).2.2 (by decide)⟩

/-- Claim C2, evaluated at the failing input: `write_textfile "d/f" "hello"`
on an empty file system leaves NO compressed mirror at
`d/compressed_backups/f` (because `try_compress_file` reads from
`d/uncompressed_files/f`, which the write never populated), and with the
compressed mirror placed there by hand but the primary file missing,
`read_textfile "d/f"` does NOT recover `"hello"`: it yields empty text
(`missing_ok = true`) or a NotFound error (`missing_ok = false`), because
`try_decompress_file` derives the compressed path as
`d/f/compressed_backups` when the primary path is not an existing file. -/
theorem claim_C2_compression_fallback_failing_input :
    (BudoPersistence.write_textfile ["d", "f"] "hello" [] =
      (.ok (), [(["d", "f"], .good "hello")], []) ∧
     fsGet (BudoPersistence.write_textfile ["d", "f"] "hello" []).2.1
       ["d", "compressed_backups", "f"] = none) ∧
    BudoPersistence.read_textfile ["d", "f"] true
        [(["d", "compressed_backups", "f"], .good "hello")] false =
      (.ok "", [(["d", "compressed_backups", "f"], .good "hello")], false) ∧
    BudoPersistence.read_textfile ["d", "f"] false
        [(["d", "compressed_backups", "f"], .good "hello")] false =
      (.error .fileNotFound,
        [(["d", "compressed_backups", "f"], .good "hello")], false) := by
  refine ⟨⟨by decide, by decide⟩, ?_, ?_⟩
  · rw [read_textfile_notFound (by decide)]
    rfl
  · rw [read_textfile_notFound (by decide)]
    rfl

/-- Claim C3 as amended: with no explicit trimmer, exactly one registry match
applies its ruleset; more than one match returns the html unchanged WITH a
warning; zero matches returns the html unchanged WITHOUT any warning. -/
theorem claim_C3_trim_html_lookup (reg : BudoTrimmer.Registry) (url html : String) :
    ((BudoTrimmer.trimMatches reg url).length = 0 →
      BudoTrimmer.trim_html reg url html none = (html, [])) ∧
    (∀ t, BudoTrimmer.trimMatches reg url = [t] →
      BudoTrimmer.trim_html reg url html none =
        BudoTrimmer.trim_and_validate t html) ∧
    (1 < (BudoTrimmer.trimMatches reg url).length →
      BudoTrimmer.trim_html reg url html none =
        (html, [.trimmerAmbiguous (BudoTrimmer.trimMatches reg url).length])) := by
  unfold BudoTrimmer.trim_html
  rcases hm : BudoTrimmer.trimMatches reg url with _ | ⟨t, ts⟩
  · refine ⟨fun _ => rfl, fun t h => ?_, fun h => ?_⟩
    · simp at h
    · simp at h
  · rcases ts with _ | ⟨t2, ts2⟩
    · refine ⟨fun h => by simp at h, fun t' h => ?_, fun h => by simp at h⟩
      injection h with h1 h2
      subst h1
      rfl
    · refine ⟨fun h => by simp at h, fun t' h => by simp at h, fun h => rfl⟩

/-- Counterexample to C3 as stated: with zero matching rulesets the html is
returned unchanged but NO warning is logged (the claim asserts one is). -/
theorem claim_C3_counterexample :
    (BudoTrimmer.trimMatches exReg "zzz").length = 0 ∧
    BudoTrimmer.trim_html exReg "zzz" "h" none = ("h", []) := by decide

/-- Witness for C3 at concrete inputs: zero, one, and two matches. -/
theorem claim_C3_witness :
    BudoTrimmer.trim_html exReg "zzz" "h" none = ("h", []) ∧
    BudoTrimmer.trim_html exReg "https://site/x" "noise<A>body</A>trailer" none =
      BudoTrimmer.trim_and_validate exTrimmer "noise<A>body</A>trailer" ∧
    BudoTrimmer.trim_html (exReg ++ [("sit", exTrimmer)]) "https://site/x" "h" none =
      ("h", [.trimmerAmbiguous 2]) :=
  ⟨(claim_C3_trim_html_lookup exReg "zzz" "h").1 (by decide),
   (claim_C3_trim_html_lookup exReg "https://site/x" "noise<A>body</A>trailer").2.1
     exTrimmer (by decide),
   (claim_C3_trim_html_lookup (exReg ++ [("sit", exTrimmer)]) "https://site/x" "h").2.2
     (by decide)⟩

/-- Claim C7: registering the same ruleset tuple twice produces no warning
and leaves the registry (hence all future trimming behavior) identical to
registering it once; registering a ruleset that differs (in the sense of
`_trimmers_are_equal`) from the one stored for the same `target_url` logs a
warning and overwrites the stored ruleset. -/
theorem claim_C7_register_idempotent_or_warn :
    (∀ (reg : BudoTrimmer.Registry) (u s e : String)
        (r : Option (List (String × String))) (v : Option (List String)),
      BudoTrimmer.register_trimming_ruleset
          (BudoTrimmer.register_trimming_ruleset reg u s e r v).1 u s e r v =
        ((BudoTrimmer.register_trimming_ruleset reg u s e r v).1, [])) ∧
    (∀ (reg : BudoTrimmer.Registry) (u s e : String)
        (r : Option (List (String × String))) (v : Option (List String))
        (t : BudoTrimmer.Trimmer),
      dictGet reg u = some t →
      BudoTrimmer._trimmers_are_equal ⟨u, s, e, r, v⟩ t = false →
      BudoTrimmer.register_trimming_ruleset reg u s e r v =
        (dictInsert u ⟨u, s, e, r, v⟩ reg, [.overwroteTrimmer u]) ∧
      dictGet (BudoTrimmer.register_trimming_ruleset reg u s e r v).1 u =
        some ⟨u, s, e, r, v⟩) := by
  constructor
  · intro reg u s e r v
    unfold BudoTrimmer.register_trimming_ruleset
    simp [dictGet_dictInsert, trimmers_are_equal_refl, dictInsert_idem]
  · intro reg u s e r v t hget hne
    unfold BudoTrimmer.register_trimming_ruleset
    simp only [hget, hne]
    exact ⟨by simp, dictGet_dictInsert ..⟩

/-- Witness for C7: double registration of one concrete ruleset is silent
and idempotent; registering a different ruleset under the same target
warns and overwrites. -/
theorem claim_C7_witness :
    BudoTrimmer.register_trimming_ruleset
        (BudoTrimmer.register_trimming_ruleset [] "site" "<A>" "</A>" none none).1
        "site" "<A>" "</A>" none none =
      ((BudoTrimmer.register_trimming_ruleset [] "site" "<A>" "</A>" none none).1, []) ∧
    BudoTrimmer.register_trimming_ruleset [("site", exTrimmer)] "site" "<B>" "</B>" none none =
      (dictInsert "site" ⟨"site", "<B>", "</B>", none, none⟩ [("site", exTrimmer)],
        [.overwroteTrimmer "site"]) ∧
    dictGet (BudoTrimmer.register_trimming_ruleset
        [("site", exTrimmer)] "site" "<B>" "</B>" none none).1 "site" =
      some ⟨"site", "<B>", "</B>", none, none⟩ := by
  refine ⟨claim_C7_register_idempotent_or_warn.1 [] "site" "<A>" "</A>" none none, ?_, ?_⟩
  · exact (claim_C7_register_idempotent_or_warn.2 [("site", exTrimmer)]
      "site" "<B>" "</B>" none none exTrimmer (by decide) (by decide)).1
  · exact (claim_C7_register_idempotent_or_warn.2 [("site", exTrimmer)]
      "site" "<B>" "</B>" none none exTrimmer (by decide) (by decide)).2

/-- Claim C10: whenever the sanitized-and-stripped path-plus-query of a URL
is empty, `_generate_filename` falls back to the character-by-character
sanitization of the whole URL with no underscore stripping. -/
theorem claim_C10_filename_fallback (url : String)
    (h : BudoHtml.sanitizedPathQuery url = []) :
    BudoHtml._generate_filename url = ⟨url.data.map sanitizeChar⟩ := by
  unfold BudoHtml._generate_filename
  rw [if_pos h]

/-- Witness for C10 at `"https://example.com/"`: the sanitized path-plus-query
strips to nothing, the fallback filename is the sanitized whole URL, and it
ends in an underscore. -/
theorem claim_C10_witness :
    BudoHtml.sanitizedPathQuery "https://example.com/" = [] ∧
    BudoHtml._generate_filename "https://example.com/" = "https___example.com_" ∧
    ("https___example.com_" : String).data.getLast? = some '_' := by
  have h : BudoHtml.sanitizedPathQuery "https://example.com/" = [] := by
    simp only [BudoHtml.sanitizedPathQuery, pyReplace_single_char]
    decide
  refine ⟨h, ?_, by decide⟩
  rw [claim_C10_filename_fallback "https://example.com/" h]
  decide

/-- Claim C8: the derived folder names for the two sample URLs, and the
character-set shape of the derived filename for the sample URL: non-empty,
all characters in `[A-Za-z0-9._-]`, no leading and no trailing underscore. -/
theorem claim_C8_path_derivation :
    BudoHtml._generate_foldername "https://mail.admin.dtu.dk/x" = "mail_admin_dtu" ∧
    BudoHtml._generate_foldername "https://www.test.com" = "test" ∧
    BudoHtml._generate_filename "https://example.com/path?query=123" ≠ "" ∧
    (BudoHtml._generate_filename "https://example.com/path?query=123").data.all
      validChar = true ∧
    (BudoHtml._generate_filename "https://example.com/path?query=123").data.head? ≠
      some '_' ∧
    (BudoHtml._generate_filename "https://example.com/path?query=123").data.getLast? ≠
      some '_' := by
  have hf : BudoHtml._generate_filename "https://example.com/path?query=123" =
      "pathquery_123" := by
    simp only [BudoHtml._generate_filename, BudoHtml.sanitizedPathQuery, pyReplace_single_char]
    decide
  refine ⟨by decide, by decide, ?_, ?_, ?_, ?_⟩ <;> rw [hf] <;> decide

theorem startIndices_single_mem {pat text : String} {i : Nat}
    (h : startIndices pat text = [i]) :
    pat.data.isPrefixOf (text.data.drop i) = true := by
  have hmem : i ∈ startIndices pat text := by rw [h]; exact List.mem_singleton.2 rfl
  unfold startIndices at hmem
  exact (List.mem_filter.1 hmem).2

/-- Claim C4: in the bounding step each marker must occur exactly once in the
text it is searched in; a unique `start` occurrence drops everything before
it, a unique `end` occurrence keeps everything up to and including the
marker, and zero or multiple occurrences of either marker leave that side
unchanged with a warning; on the sample text the bounding yields exactly
`"<A>body</A>"` with no warnings. -/
theorem claim_C4_trim_bounding :
    (∀ (text s : String) (i : Nat), startIndices s text = [i] →
      BudoTrimmer._trim_start text s = (⟨text.data.drop i⟩, [])) ∧
    (∀ (text e : String) (i : Nat), startIndices e text = [i] →
      BudoTrimmer._trim_end text e = (⟨text.data.take i ++ e.data⟩, [])) ∧
    (∀ text s : String, startIndices s text = [] →
      BudoTrimmer._trim_start text s = (text, [.startNotFound])) ∧
    (∀ text s : String, 1 < (startIndices s text).length →
      BudoTrimmer._trim_start text s = (text, [.startMultiple])) ∧
    (∀ text e : String, startIndices e text = [] →
      BudoTrimmer._trim_end text e = (text, [.endNotFound])) ∧
    (∀ text e : String, 1 < (startIndices e text).length →
      BudoTrimmer._trim_end text e = (text, [.endMultiple])) ∧
    BudoTrimmer._trim_start_and_end "noise<A>body</A>trailer" "<A>" "</A>" =
      ("<A>body</A>", []) := by
  refine ⟨?_, ?_, ?_, ?_, ?_, ?_, by decide⟩
  · intro text s i h
    unfold BudoTrimmer._trim_start
    rw [h]
  · intro text e i h
    unfold BudoTrimmer._trim_end
    rw [h]
    have hpre := startIndices_single_mem h
    rw [ List.isPrefixOf_iff_prefix] at hpre
    obtain ⟨t, ht⟩ := hpre
    have htake : text.data.take (i + e.data.length) = text.data.take i ++ e.data := by
      rw [List.take_add, ← ht]
      congr 1
      exact List.take_left e.data t
    dsimp only
    rw [htake]
  · intro text s h
    unfold BudoTrimmer._trim_start
    rw [h]
  · intro text s h
    unfold BudoTrimmer._trim_start
    rcases hsi : startIndices s text with _ | ⟨i1, _ | ⟨i2, rest⟩⟩
    · rw [hsi] at h; simp at h
    · rw [hsi] at h; simp at h
    · rfl
  · intro text e h
    unfold BudoTrimmer._trim_end
    rw [h]
  · intro text e h
    unfold BudoTrimmer._trim_end
    rcases hsi : startIndices e text with _ | ⟨i1, _ | ⟨i2, rest⟩⟩
    · rw [hsi] at h; simp at h
    · rw [hsi] at h; simp at h
    · rfl

/-- Witness for C4 at concrete inputs: a unique start occurrence, a unique
end occurrence, and zero- and double-occurrence cases. -/
theorem claim_C4_witness :
    BudoTrimmer._trim_start "x<A>y" "<A>" = ("<A>y", []) ∧
    BudoTrimmer._trim_end "x</A>y" "</A>" = ("x</A>", []) ∧
    BudoTrimmer._trim_start "xy" "<A>" = ("xy", [.startNotFound]) ∧
    BudoTrimmer._trim_start "<A><A>" "<A>" = ("<A><A>", [.startMultiple]) := by
  refine ⟨?_, ?_, ?_, ?_⟩
  · have := claim_C4_trim_bounding.1 "x<A>y" "<A>" 1 (by decide)
    rw [this]
    decide
  · have := claim_C4_trim_bounding.2.1 "x</A>y" "</A>" 1 (by decide)
    rw [this]
    decide
  · exact claim_C4_trim_bounding.2.2.1 "xy" "<A>" (by decide)
  · exact claim_C4_trim_bounding.2.2.2.1 "<A><A>" "<A>" (by decide)

/-- Claim C9: `try_get_cached_html` promotes non-empty disk hits into the
in-memory map before returning them, and consequently any call returning a
non-empty string leaves the in-memory map holding that URL mapped to exactly
that string. -/
theorem claim_C9_try_get_promotes :
    (∀ (url : String) (path : Option FPath) (st st2 : BudoHtml.HState)
        (h : String),
      dictGet st.webcache url = none →
      BudoHtml._search_url_in_local_webcache url path st = (.ok h, st2) →
      h ≠ "" →
      BudoHtml.try_get_cached_html url path st =
        (.ok h, { st2 with webcache := dictInsert url h st2.webcache }) ∧
      dictGet (dictInsert url h st2.webcache) url = some h) ∧
    (∀ (url : String) (path : Option FPath) (st st' : BudoHtml.HState)
        (h : String),
      BudoHtml.try_get_cached_html url path st = (.ok h, st') → h ≠ "" →
      dictGet st'.webcache url = some h) :=
  ⟨fun _ _ _ _ h hm hs hh =>
    ⟨try_get_cached_html_promotes hm hs hh, dictGet_dictInsert _ h _⟩,
   fun _ _ _ _ _ heq hh => try_get_cached_html_ok_mem heq hh⟩

/-- Witness for C9: a concrete disk hit is promoted into the in-memory map,
and a concrete in-memory hit satisfies the "consequently" clause. -/
theorem claim_C9_witness :
    BudoHtml.try_get_cached_html "u" (some ["p"])
        ⟨[], [(["p"], .good "X")], false⟩ =
      (.ok "X", ⟨[("u", "X")], [(["p"], .good "X")], false⟩) ∧
    dictGet (dictInsert "u" "X" ([] : List (String × String))) "u" = some "X" ∧
    dictGet ([("v", "Y")] : List (String × String)) "v" = some "Y" := by
  have hs : BudoHtml._search_url_in_local_webcache "u" (some ["p"])
      ⟨[], [(["p"], .good "X")], false⟩ =
      (.ok "X", ⟨[], [(["p"], .good "X")], false⟩) := by
    unfold BudoHtml._search_url_in_local_webcache BudoPersistence.try_read_textfile
    rw [if_pos (show BudoConfig.feature_flag_read_webcache = true from rfl)]
    dsimp only [Option.getD]
    rw [read_textfile_content
      (show openRead [(["p"], Entry.good "X")] ["p"] = .content "X" by decide)]
  have hmain := claim_C9_try_get_promotes.1 "u" (some ["p"])
    ⟨[], [(["p"], .good "X")], false⟩ ⟨[], [(["p"], .good "X")], false⟩ "X"
    (by decide) hs (by decide)
  have hcons := claim_C9_try_get_promotes.2 "v" none ⟨[("v", "Y")], [], false⟩
    ⟨[("v", "Y")], [], false⟩ "Y" (by decide) (by decide)
  exact ⟨hmain.1, hmain.2, hcons⟩

/-- Counterexample to C5 as stated: for a URL cached with the EMPTY value, a
subsequent `fetch_url` is NOT a pure read: it sends one network request,
returns the fresh text instead of the cached value, and mutates both the
in-memory map and the disk. -/
theorem claim_C5_counterexample :
    dictGet ([("u", "")] : List (String × String)) "u" = some "" ∧
    BudoHtml.fetch_url [] (fun _ => "X") "u" none ⟨[("u", "")], [], false⟩ =
      (.ok "X",
        ⟨[("u", "X")], [(["data", "webcache", "", "u.txt"], .good "X")], false⟩,
        1) := by
  have hpath : BudoHtml._get_path_for_cached_html "u" =
      ["data", "webcache", "", "u.txt"] := by
    simp only [BudoHtml._get_path_for_cached_html, BudoHtml._generate_filename,
      BudoHtml.sanitizedPathQuery, pyReplace_single_char]
    decide
  refine ⟨by decide, ?_⟩
  simp only [BudoHtml.fetch_url, BudoHtml.try_get_cached_html,
    BudoHtml.cache_html_for_later, BudoHtml._write_html_to_disk, hpath,
    dictGet, Option.getD]
  decide

/-- Claim C5 as amended: for every URL present in the in-memory map with a
NON-empty value, `fetch_url` is a pure read: it returns the cached value,
sends zero network requests, and leaves the state unchanged. -/
theorem claim_C5_fetch_pure_read (reg : BudoTrimmer.Registry)
    (net : String → String) (url : String) (path : Option FPath)
    (st : BudoHtml.HState) (c : String)
    (h : dictGet st.webcache url = some c) (hc : c ≠ "") :
    BudoHtml.fetch_url reg net url path st = (.ok c, st, 0) :=
  fetch_url_memory_hit h hc

/-- Witness for C5 at a concrete non-empty cached URL. -/
theorem claim_C5_witness :
    BudoHtml.fetch_url [] (fun _ => "Y") "u" none ⟨[("u", "X")], [], false⟩ =
      (.ok "X", ⟨[("u", "X")], [], false⟩, 0) :=
  claim_C5_fetch_pure_read [] (fun _ => "Y") "u" none
    ⟨[("u", "X")], [], false⟩ "X" (by decide) (by decide)

/-- Counterexample to C1 as stated: with a ruleset registered for the URL,
the first `fetch_url` returns the RAW fetched text while caching the trimmed
text, so the immediately repeated `fetch_url` returns different bytes (the
second call does send zero additional requests). -/
theorem claim_C1_counterexample :
    BudoHtml.fetch_url exReg exNet "https://site/x" none ⟨[], [], false⟩ =
      (.ok "noise<A>body</A>trailer",
        ⟨[("https://site/x", "<A>body</A>")],
          [(["data", "webcache", "", "x.txt"], .good "<A>body</A>")], false⟩, 1) ∧
    BudoHtml.fetch_url exReg exNet "https://site/x" none
        ⟨[("https://site/x", "<A>body</A>")],
          [(["data", "webcache", "", "x.txt"], .good "<A>body</A>")], false⟩ =
      (.ok "<A>body</A>",
        ⟨[("https://site/x", "<A>body</A>")],
          [(["data", "webcache", "", "x.txt"], .good "<A>body</A>")], false⟩, 0) ∧
    ("noise<A>body</A>trailer" : String) ≠ "<A>body</A>" := by
  have hpath : BudoHtml._get_path_for_cached_html "https://site/x" =
      ["data", "webcache", "", "x.txt"] := by
    simp only [BudoHtml._get_path_for_cached_html, BudoHtml._generate_filename,
      BudoHtml.sanitizedPathQuery, pyReplace_single_char]
    decide
  have hread : BudoPersistence.read_textfile ["data", "webcache", "", "x.txt"]
      true [] false = (.ok "", [], false) := by
    rw [read_textfile_notFound
      (show openRead ([] : FS) ["data", "webcache", "", "x.txt"] = .notFound
        from rfl)]
    rfl
  refine ⟨?_, by decide, by decide⟩
  simp only [BudoHtml.fetch_url, BudoHtml.try_get_cached_html,
    BudoHtml._search_url_in_local_webcache, BudoPersistence.try_read_textfile,
    BudoHtml.cache_html_for_later, BudoHtml._write_html_to_disk, hpath, hread,
    dictGet, Option.getD]
  decide

/-- Claim C1 as amended: a completed `fetch_url` always leaves an entry for
the URL in the in-memory map; whenever that cached entry is non-empty, an
immediately repeated `fetch_url` with no intervening registry change sends
zero additional network requests and returns exactly the cached (trimmed)
text with no state change — which is byte-identical to the first result only
when the first call was itself a cache hit or trimming left the fetched text
unchanged. -/
theorem claim_C1_fetch_roundtrip :
    (∀ (reg : BudoTrimmer.Registry) (net : String → String) (url : String)
        (path : Option FPath) (st st1 : BudoHtml.HState) (h : String) (n : Nat),
      BudoHtml.fetch_url reg net url path st = (.ok h, st1, n) →
      ∃ c, dictGet st1.webcache url = some c) ∧
    (∀ (reg : BudoTrimmer.Registry) (net : String → String) (url : String)
        (path : Option FPath) (st : BudoHtml.HState) (c : String),
      dictGet (BudoHtml.fetch_url reg net url path st).2.1.webcache url = some c →
      c ≠ "" →
      BudoHtml.fetch_url reg net url path
          ((BudoHtml.fetch_url reg net url path st).2.1) =
        (.ok c, (BudoHtml.fetch_url reg net url path st).2.1, 0)) :=
  ⟨fun _ _ _ _ _ _ _ _ heq => fetch_url_ok_mem heq,
   fun _ _ _ _ _ _ h hc => fetch_url_memory_hit h hc⟩

/-- Witness for C1 at a concrete pair of calls. -/
theorem claim_C1_witness :
    (∃ c, dictGet ([("u", "X")] : List (String × String)) "u" = some c) ∧
    BudoHtml.fetch_url [] (fun _ => "Z") "u" none
        ((BudoHtml.fetch_url [] (fun _ => "Z") "u" none
          ⟨[("u", "X")], [], false⟩).2.1) =
      (.ok "X",
        (BudoHtml.fetch_url [] (fun _ => "Z") "u" none
          ⟨[("u", "X")], [], false⟩).2.1, 0) :=
  ⟨claim_C1_fetch_roundtrip.1 [] (fun _ => "Z") "u" none
      ⟨[("u", "X")], [], false⟩ ⟨[("u", "X")], [], false⟩ "X" 0 (by decide),
   claim_C1_fetch_roundtrip.2 [] (fun _ => "Z") "u" none
      ⟨[("u", "X")], [], false⟩ "X" (by decide) (by decide)⟩
